import Mathlib

/-!
Verification of `pubsub/azure/servicebus/topics/servicebus.go` (Azure Service
Bus Topics pub-sub component): a shallow embedding of the publish retry path,
the bulk-publish path, the subscription supervisory loop, the session slot
pool, and `Close`, together with theorems settling the specification claims.

Broker interactions (the azservicebus SDK client) are modelled as abstract
environments supplying per-attempt outcomes; errors are modelled abstractly,
carrying only the classification bits that `impl.IsNetworkError` and
`impl.IsRetriableAMQPError` would answer, plus an identity tag so that
"returned unmodified" is expressible.
-/

namespace ServiceBusTopics

/-- An abstract broker error. `isNetwork` and `isRetriableAMQP` are the answers
the external error classifier (`impl.IsNetworkError`, `impl.IsRetriableAMQPError`)
gives for it; `tag` is an identity so theorems can say an error is returned
unmodified. -/
structure Err where
  isNetwork : Bool
  isRetriableAMQP : Bool
  tag : Nat
  deriving DecidableEq, Repr

/-- The sender cache of `impl.Client`: an association list from topic to the
generation number of the cached `*servicebus.Sender`, plus a counter used to
mint fresh sender instances. Generations let theorems distinguish "the same
sender instance is reused" from "a new sender was created". -/
structure ClientState where
  senders : List (String × Nat)
  nextGen : Nat
  deriving DecidableEq, Repr

/-- The sender cache of a freshly initialised component: empty. -/
def ClientState.init : ClientState := ⟨[], 0⟩

/-- `impl.Client.GetSender`: get-or-create. Returns the cached sender's
generation when one exists for the topic, otherwise caches and returns a
fresh generation. -/
def getSender (topic : String) (s : ClientState) : ClientState × Nat :=
  match s.senders.lookup topic with
  | some g => (s, g)
  | none => (⟨(topic, s.nextGen) :: s.senders, s.nextGen + 1⟩, s.nextGen)

/-- `impl.Client.CloseSender`: evict the cached sender for the topic. -/
def closeSender (topic : String) (s : ClientState) : ClientState :=
  ⟨s.senders.filter (fun p => p.1 ≠ topic), s.nextGen⟩

/-- `impl.Client.CloseAllSenders`: evict every cached sender. -/
def closeAllSenders (s : ClientState) : ClientState :=
  ⟨[], s.nextGen⟩

/-- What the broker does during one invocation of the publish attempt closure
(lines 92–127 of the source): `EnsureTopic` may fail, then `GetSender` may
fail, then `SendMessage` either succeeds or fails with some error. -/
inductive BrokerStep where
  | ensureTopicFails (e : Err)
  | getSenderFails (e : Err)
  | sendOk
  | sendFails (e : Err)
  deriving DecidableEq, Repr

/-- The error value the attempt closure returns: either wrapped with
`backoff.Permanent` (stopping the retry loop) or plain (retriable). -/
inductive AttemptError where
  | transient (e : Err)
  | permanent (e : Err)
  deriving DecidableEq, Repr

/-- Result of one invocation of the attempt closure: the updated sender cache,
the generation of the sender used for the send (none when the attempt failed
before obtaining a sender), and the returned error (none on success). -/
structure AttemptOut where
  state : ClientState
  usedGen : Option Nat
  result : Option AttemptError
  deriving DecidableEq, Repr

/-- The publish attempt closure from `Publish` (source lines 92–127):
`EnsureTopic`, then `GetSender`, then `SendMessage`; on a send error,
a network-classified error evicts the cached sender (`CloseSender`) and is
returned retriable, a retriable-AMQP-classified error is returned retriable
with the cache untouched, and any other error is wrapped `backoff.Permanent`. -/
def publishAttempt (topic : String) (step : BrokerStep) (s : ClientState) : AttemptOut :=
  match step with
  | .ensureTopicFails e => ⟨s, none, some (.transient e)⟩
  | .getSenderFails e => ⟨s, none, some (.transient e)⟩
  | .sendOk =>
      let r := getSender topic s
      ⟨r.1, some r.2, none⟩
  | .sendFails e =>
      let r := getSender topic s
      if e.isNetwork then ⟨closeSender topic r.1, some r.2, some (.transient e)⟩
      else if e.isRetriableAMQP then ⟨r.1, some r.2, some (.transient e)⟩
      else ⟨r.1, some r.2, some (.permanent e)⟩

/-- Observable trace of one `Publish` call: how many times the attempt closure
ran, how many times the retry notification (`onRetry`, the Warnf callback) and
the recovery notification (`onRecovered`, the Infof callback) fired, the final
sender cache, and the returned error (none on success). -/
structure RetryTrace where
  attempts : Nat
  onRetryCalls : Nat
  onRecoveredCalls : Nat
  finalState : ClientState
  result : Option Err
  deriving DecidableEq, Repr

/-- Modelled from the spec: the Publish Retrier — `retry.NotifyRecover` from
dapr/kit over `backoff.WithMaxRetries` from cenkalti/backoff/v4, whose sources
are not in this repository. Per the spec's §4.2 contract: invoke the attempt;
on a Permanent-classified failure stop and surface the error unwrapped; on a
retriable failure invoke `onRetry` and re-invoke, unless the retry cap is hit,
in which case surface the last error; on the first success after at least one
failure invoke `onRecovered` before returning success. `retriesLeft` is the
remaining retry budget (`PublishMaxRetries` at the top call), `env n` gives the
broker's behaviour on the n-th remaining attempt, and `notified` records
whether a failure was already notified (false at the top call). -/
def publishRetry (topic : String) (env : Nat → BrokerStep) (retriesLeft : Nat)
    (s : ClientState) (notified : Bool) : RetryTrace :=
  let out := publishAttempt topic (env 0) s
  match out.result with
  | none =>
      ⟨1, 0, if notified then 1 else 0, out.state, none⟩
  | some (.permanent e) =>
      ⟨1, 0, 0, out.state, some e⟩
  | some (.transient e) =>
      match retriesLeft with
      | 0 => ⟨1, 0, 0, out.state, some e⟩
      | r + 1 =>
          let t := publishRetry topic (fun i => env (i + 1)) r out.state true
          ⟨t.attempts + 1, t.onRetryCalls + 1, t.onRecoveredCalls, t.finalState, t.result⟩

/-- `Publish` (source lines 76–136) as the trace of its retry loop: the closure
is retried under `backoff.WithMaxRetries(·, PublishMaxRetries)` with the two
logging callbacks, starting from the current sender cache with no prior
notification. -/
def Publish (topic : String) (maxRetries : Nat) (env : Nat → BrokerStep)
    (s : ClientState) : RetryTrace :=
  publishRetry topic env maxRetries s false

/-- Which context a broker/SDK call in `BulkPublish` is given: the component's
long-lived `a.publishCtx`, or the caller-supplied `ctx` argument. -/
inductive Ctx where
  | publish
  | caller
  deriving DecidableEq, Repr

/-- The broker/SDK calls `BulkPublish` can make, in source order:
`EnsureTopic`, `GetSender`, `Sender.NewMessageBatch`, `Sender.SendMessageBatch`.
(`UpdateASBBatchMessageWithBulkPublishRequest` is local message conversion,
not a broker call, and takes no context.) -/
inductive BulkCall where
  | ensureTopic
  | getSender
  | newBatch
  | sendBatch
  deriving DecidableEq, Repr

/-- Outcomes the environment supplies for one `BulkPublish` call: an optional
error for each fallible step. -/
structure BulkEnv where
  ensureTopicErr : Option Err
  getSenderErr : Option Err
  newBatchErr : Option Err
  updateBatchErr : Option Err
  sendBatchErr : Option Err
  deriving DecidableEq, Repr

/-- Per-entry status in a `pubsub.BulkPublishResponse`. -/
inductive PublishStatus where
  | succeeded
  | failed
  deriving DecidableEq, Repr

/-- `pubsub.NewBulkPublishResponse(entries, status, err)`: marks every entry of
the request with the given status. Entries are identified by their ids. -/
def newBulkPublishResponse (entries : List Nat) (status : PublishStatus) :
    List (Nat × PublishStatus) :=
  entries.map (fun id => (id, status))

/-- Result of one `BulkPublish` call: the response (per-entry statuses), the
returned error, and the trace of broker/SDK calls made, each tagged with the
context it was given. -/
structure BulkOut where
  response : List (Nat × PublishStatus)
  error : Option Err
  calls : List (BulkCall × Ctx)
  deriving DecidableEq, Repr

/-- `BulkPublish` (source lines 138–182). An empty request returns a success
response immediately. Otherwise: `EnsureTopic` under `a.publishCtx`, then
`GetSender`, `NewMessageBatch` and `SendMessageBatch` under the caller's `ctx`,
with local batch-message conversion between batch creation and send; the first
failing step aborts with a failure response carrying that error. -/
def BulkPublish (env : BulkEnv) (entries : List Nat) : BulkOut :=
  if entries.isEmpty then
    ⟨newBulkPublishResponse entries .succeeded, none, []⟩
  else
    let calls₁ := [(BulkCall.ensureTopic, Ctx.publish)]
    match env.ensureTopicErr with
    | some e => ⟨newBulkPublishResponse entries .failed, some e, calls₁⟩
    | none =>
      let calls₂ := calls₁ ++ [(BulkCall.getSender, Ctx.caller)]
      match env.getSenderErr with
      | some e => ⟨newBulkPublishResponse entries .failed, some e, calls₂⟩
      | none =>
        let calls₃ := calls₂ ++ [(BulkCall.newBatch, Ctx.caller)]
        match env.newBatchErr with
        | some e => ⟨newBulkPublishResponse entries .failed, some e, calls₃⟩
        | none =>
          match env.updateBatchErr with
          | some e => ⟨newBulkPublishResponse entries .failed, some e, calls₃⟩
          | none =>
            let calls₄ := calls₃ ++ [(BulkCall.sendBatch, Ctx.caller)]
            match env.sendBatchErr with
            | some e => ⟨newBulkPublishResponse entries .failed, some e, calls₄⟩
            | none => ⟨newBulkPublishResponse entries .succeeded, none, calls₄⟩

/-- Top-level component state relevant to `Close`: whether the long-lived
publish context has been cancelled, and the sender cache of the client. -/
structure ComponentState where
  publishCtxCancelled : Bool
  client : ClientState
  deriving DecidableEq, Repr

/-- The component state right after `Init`: publish context alive, no cached
senders, nothing published or received yet. -/
def ComponentState.init : ComponentState :=
  ⟨false, ClientState.init⟩

/-- `Close` (source lines 309–313): cancel the publish context
(`a.publishCancel()`), close all cached senders (`CloseAllSenders`), return
nil. -/
def Close (a : ComponentState) : ComponentState × Option Err :=
  (⟨true, closeAllSenders a.client⟩, none)

/-- Modelled from the spec: the subscribe-side Backoff Policy
(`backoff.NewExponentialBackOff` from cenkalti/backoff/v4, whose source is not
in this repository). Per the spec's §4.1 contract: `next()` returns the
current interval and grows it geometrically (fixed multiplier in ×1.5–2,
modelled as ×3/2 on naturals, randomisation omitted) capped at `maxInterval`;
`reset()` restores the current interval to `initialInterval`. `doSubscribe`
configures it with `MaxElapsedTime = 0` (never exhausted),
`InitialInterval = MinConnectionRecoveryInSec` and
`MaxInterval = MaxConnectionRecoveryInSec`. -/
structure BackoffState where
  initialInterval : Nat
  maxInterval : Nat
  currentInterval : Nat
  deriving DecidableEq, Repr

/-- A freshly constructed backoff policy: current interval is the initial
interval. -/
def BackoffState.make (ini maxI : Nat) : BackoffState :=
  ⟨ini, maxI, ini⟩

/-- `bo.NextBackOff()`: return the current interval, then grow it (×3/2 capped
at the maximum interval). Never returns the `Stop` sentinel since
`MaxElapsedTime = 0` and no retry cap is installed on the subscribe path. -/
def nextBackOff (b : BackoffState) : Nat × BackoffState :=
  (b.currentInterval,
   ⟨b.initialInterval, b.maxInterval, min (b.currentInterval * 3 / 2) b.maxInterval⟩)

/-- `bo.Reset()`: restore the current interval to the initial interval. -/
def resetBackOff (b : BackoffState) : BackoffState :=
  ⟨b.initialInterval, b.maxInterval, b.initialInterval⟩

/-- Outcome of one connection cycle of the reconnect loop, i.e. one return of
`ConnectAndReceive` / `ConnectAndReceiveWithSessions`: whether the receive
phase invoked `onFirstSuccess` (modelled from the spec: `impl.Subscription`,
not in this repository, invokes it exactly on the first successfully received
message of the connection), whether `subscribeCtx.Err() != nil` when the cycle
returned, and the steady-state error the cycle ended with (logged, never
returned to the subscriber). -/
structure CycleOutcome where
  firstMessageReceived : Bool
  ctxCancelled : Bool
  cycleErr : Option Err
  deriving DecidableEq, Repr

/-- State of the background reconnect loop of `doSubscribe` (source lines
285–304): the backoff policy, whether the loop has returned, and the backoff
waits performed so far, in chronological order. -/
structure LoopState where
  bo : BackoffState
  stopped : Bool
  waits : List Nat
  deriving DecidableEq, Repr

/-- The loop state on entry: fresh backoff policy, running, no waits yet. -/
def LoopState.start (ini maxI : Nat) : LoopState :=
  ⟨BackoffState.make ini maxI, false, []⟩

/-- One iteration of the reconnect loop (source lines 287–303): run a
connection cycle (during which `onFirstSuccess` may reset the backoff); if the
subscription context is cancelled, return without reconnecting; otherwise wait
`bo.NextBackOff()` and loop. A stopped loop stays stopped. -/
def loopStep (o : CycleOutcome) (st : LoopState) : LoopState :=
  if st.stopped then st
  else
    let bo₁ := if o.firstMessageReceived then resetBackOff st.bo else st.bo
    if o.ctxCancelled then ⟨bo₁, true, st.waits⟩
    else
      let w := nextBackOff bo₁
      ⟨w.2, false, st.waits ++ [w.1]⟩

/-- Run `n` iterations of the reconnect loop under an environment giving each
cycle's outcome. -/
def loopRun (env : Nat → CycleOutcome) : Nat → LoopState → LoopState
  | 0, st => st
  | n + 1, st => loopRun (fun i => env (i + 1)) n (loopStep (env 0) st)

/-- Result of a `Subscribe`/`BulkSubscribe` call: the synchronously returned
error, whether the background supervisory loop was started, and the state of
that loop after `steps` iterations (at its start state when never started). -/
structure SubscribeOut where
  returned : Option Err
  loopStarted : Bool
  loop : LoopState
  deriving DecidableEq, Repr

/-- `doSubscribe` (source lines 265–307): `EnsureSubscription` first — on
failure its error is returned synchronously and no loop is started; otherwise
the reconnect loop is started as a background goroutine with a fresh backoff
policy (`InitialInterval = MinConnectionRecoveryInSec`, `MaxInterval =
MaxConnectionRecoveryInSec`) and nil is returned immediately. -/
def doSubscribe (ensureSubscriptionErr : Option Err) (ini maxI : Nat)
    (env : Nat → CycleOutcome) (steps : Nat) : SubscribeOut :=
  match ensureSubscriptionErr with
  | some e => ⟨some e, false, LoopState.start ini maxI⟩
  | none => ⟨none, true, loopRun env steps (LoopState.start ini maxI)⟩

/-- `Subscribe` (source lines 184–221): option parsing from request metadata is
total (`IsTruthy` and `GetElemOrDefaultFromMap` always produce a value, falling
back to defaults), so the synchronous outcome is that of `doSubscribe`. -/
def Subscribe (ensureSubscriptionErr : Option Err) (ini maxI : Nat)
    (env : Nat → CycleOutcome) (steps : Nat) : SubscribeOut :=
  doSubscribe ensureSubscriptionErr ini maxI env steps

/-- `BulkSubscribe` (source lines 223–261): identical supervisory machinery;
only the receive-function adapter differs, which does not affect the
synchronous outcome. -/
def BulkSubscribe (ensureSubscriptionErr : Option Err) (ini maxI : Nat)
    (env : Nat → CycleOutcome) (steps : Nat) : SubscribeOut :=
  doSubscribe ensureSubscriptionErr ini maxI env steps

/-- State of the session slot pool of `ConnectAndReceiveWithSessions` (source
lines 374–459): `available` = tokens currently in the buffered channel
`sessionsChan` (capacity `maxConcurrentSessions`, pre-filled with that many
tokens), `openSessions` = session lifecycles currently holding a token. -/
structure PoolState where
  available : Nat
  openSessions : Nat
  deriving DecidableEq, Repr

/-- Events of the session pool: `acquire` is the `<-sessionsChan` receive that
gates spawning a session goroutine (only enabled when a token is available),
`release` is the deferred `sessionsChan <- struct{}{}` that returns the token
when the session's lifecycle ends (guaranteed on every exit path by `defer`). -/
inductive PoolEvent where
  | acquire
  | release
  deriving DecidableEq, Repr

/-- One transition of the session pool. An `acquire` with no token available
blocks in the source; here it leaves the state unchanged (the event cannot
take effect). A `release` always returns a token (every release is paired with
a prior acquire in the source; the guard is vacuous on reachable states). -/
def poolStep (st : PoolState) (e : PoolEvent) : PoolState :=
  match e with
  | .acquire => if 0 < st.available then ⟨st.available - 1, st.openSessions + 1⟩ else st
  | .release => if 0 < st.openSessions then ⟨st.available + 1, st.openSessions - 1⟩ else st

/-- Run the session pool from its initial state (`sessionsChan` pre-filled with
`capacity` tokens, no open sessions) over a sequence of events. -/
def poolRun (capacity : Nat) (events : List PoolEvent) : PoolState :=
  events.foldl poolStep ⟨capacity, 0⟩

lemma poolStep_sum (st : PoolState) (e : PoolEvent) :
    (poolStep st e).available + (poolStep st e).openSessions =
      st.available + st.openSessions := by
  obtain ⟨a, b⟩ := st
  cases e <;> simp only [poolStep] <;> split <;> dsimp only <;> omega

lemma poolFoldl_sum (events : List PoolEvent) (st : PoolState) :
    (events.foldl poolStep st).available + (events.foldl poolStep st).openSessions =
      st.available + st.openSessions := by
  induction events generalizing st with
  | nil => rfl
  | cons e rest ih =>
      rw [List.foldl_cons, ih, poolStep_sum]

/-- C2: in session mode the number of concurrently open session receivers never
exceeds the pool capacity `maxConcurrentSessions`: a token is taken from the
pre-filled channel before a session goroutine opens a receiver and returned
when the session's lifecycle ends, so along every event sequence the open-count
stays within capacity. -/
theorem session_pool_slot_bound (capacity : Nat) (events : List PoolEvent) :
    (poolRun capacity events).openSessions ≤ capacity := by
  have h := poolFoldl_sum events ⟨capacity, 0⟩
  simp only [poolRun] at *
  omega

/-- C8: a `BulkPublish` whose entries list is empty immediately returns a
response marking the (zero) entries as succeeded with a nil error, making no
broker calls at all. -/
theorem bulkPublish_empty_no_broker_calls (env : BulkEnv) :
    BulkPublish env [] = ⟨[], none, []⟩ := by
  rfl

/-- C9: `Close` cancels the long-lived publish context, closes every cached
sender, and returns nil; it does this on any component state, including the
freshly initialised one on which nothing was ever published or received. -/
theorem close_cancels_and_releases (a : ComponentState) :
    (Close a).1.publishCtxCancelled = true ∧
    (Close a).1.client.senders = [] ∧
    (Close a).2 = none ∧
    (Close ComponentState.init).2 = none := by
  refine ⟨rfl, rfl, rfl, rfl⟩

/-- C7: `Subscribe` and `BulkSubscribe` return synchronously exactly the
`EnsureSubscription` setup error; on successful setup they start the
supervisory loop in the background and return nil at once, and no steady-state
outcome of any later connection cycle changes the returned value. -/
theorem subscribe_returns_only_setup_errors (e? : Option Err) (ini maxI : Nat)
    (env : Nat → CycleOutcome) (steps : Nat) :
    (Subscribe e? ini maxI env steps).returned = e? ∧
    (BulkSubscribe e? ini maxI env steps).returned = e? ∧
    ((Subscribe e? ini maxI env steps).loopStarted = true ↔ e? = none) ∧
    ((BulkSubscribe e? ini maxI env steps).loopStarted = true ↔ e? = none) := by
  cases e? <;> simp [Subscribe, BulkSubscribe, doSubscribe]

/-- C10: in every non-empty `BulkPublish`, `EnsureTopic` runs under the
component's long-lived publish context, and every other broker/SDK call
(`GetSender`, `NewMessageBatch`, `SendMessageBatch`) runs under the
caller-supplied context. -/
theorem bulkPublish_ensureTopic_uses_publish_ctx (env : BulkEnv) (entries : List Nat)
    (h : entries ≠ []) :
    (BulkCall.ensureTopic, Ctx.publish) ∈ (BulkPublish env entries).calls ∧
    ∀ p ∈ (BulkPublish env entries).calls,
      (p.1 = BulkCall.ensureTopic → p.2 = Ctx.publish) ∧
      (p.1 ≠ BulkCall.ensureTopic → p.2 = Ctx.caller) := by
  have he : entries.isEmpty = false := by
    cases entries with
    | nil => exact absurd rfl h
    | cons a l => rfl
  obtain ⟨e₁, e₂, e₃, e₄, e₅⟩ := env
  cases e₁ <;> cases e₂ <;> cases e₃ <;> cases e₄ <;> cases e₅ <;>
    simp [BulkPublish, he]

/-- Closed instance for C10: a two-entry request with an all-success
environment makes its `EnsureTopic` call under the publish context and all
other calls under the caller's context. -/
theorem bulkPublish_ensureTopic_uses_publish_ctx_witness :
    (BulkCall.ensureTopic, Ctx.publish) ∈
        (BulkPublish ⟨none, none, none, none, none⟩ [1, 2]).calls ∧
    ∀ p ∈ (BulkPublish ⟨none, none, none, none, none⟩ [1, 2]).calls,
      (p.1 = BulkCall.ensureTopic → p.2 = Ctx.publish) ∧
      (p.1 ≠ BulkCall.ensureTopic → p.2 = Ctx.caller) :=
  bulkPublish_ensureTopic_uses_publish_ctx ⟨none, none, none, none, none⟩ [1, 2]
    (by decide)

lemma getSender_lookup (topic : String) (s : ClientState) :
    (getSender topic s).1.senders.lookup topic = some (getSender topic s).2 := by
  simp only [getSender]
  cases h : s.senders.lookup topic with
  | some g => simp [h]
  | none => simp [h, List.lookup]

lemma publishRetry_attempts_pos (topic : String) (env : Nat → BrokerStep) (r : Nat)
    (s : ClientState) (b : Bool) : 1 ≤ (publishRetry topic env r s b).attempts := by
  rw [publishRetry]
  split <;> (try split) <;> dsimp only <;> omega

/-- C4: for an attempt function that always fails with a Permanent-classified
error (neither network- nor retriable-AMQP-classified), `Publish` invokes the
attempt exactly once, performs no retry and no recovery notification, and
returns that error unmodified (unwrapped from `backoff.Permanent`). -/
theorem publish_permanent_no_retry (topic : String) (maxRetries : Nat)
    (env : Nat → BrokerStep) (s : ClientState) (e : Err)
    (henv : ∀ i, env i = BrokerStep.sendFails e)
    (hn : e.isNetwork = false) (ha : e.isRetriableAMQP = false) :
    (Publish topic maxRetries env s).attempts = 1 ∧
    (Publish topic maxRetries env s).onRetryCalls = 0 ∧
    (Publish topic maxRetries env s).onRecoveredCalls = 0 ∧
    (Publish topic maxRetries env s).result = some e := by
  simp only [Publish]
  rw [publishRetry, henv 0]
  simp [publishAttempt, hn, ha]


lemma publishRetry_success_eq (topic : String) (env : Nat → BrokerStep) (r : Nat)
    (s : ClientState) (b : Bool)
    (h : (publishAttempt topic (env 0) s).result = none) :
    publishRetry topic env r s b =
      ⟨1, 0, if b then 1 else 0, (publishAttempt topic (env 0) s).state, none⟩ := by
  rw [publishRetry]
  simp only [h]

lemma publishRetry_permanent_eq (topic : String) (env : Nat → BrokerStep) (r : Nat)
    (s : ClientState) (b : Bool) (e : Err)
    (h : (publishAttempt topic (env 0) s).result = some (AttemptError.permanent e)) :
    publishRetry topic env r s b =
      ⟨1, 0, 0, (publishAttempt topic (env 0) s).state, some e⟩ := by
  rw [publishRetry]
  simp only [h]

lemma publishRetry_transient_zero_eq (topic : String) (env : Nat → BrokerStep)
    (s : ClientState) (b : Bool) (e : Err)
    (h : (publishAttempt topic (env 0) s).result = some (AttemptError.transient e)) :
    publishRetry topic env 0 s b =
      ⟨1, 0, 0, (publishAttempt topic (env 0) s).state, some e⟩ := by
  rw [publishRetry]
  simp only [h]

lemma publishRetry_transient_succ_eq (topic : String) (env : Nat → BrokerStep) (r : Nat)
    (s : ClientState) (b : Bool) (e : Err)
    (h : (publishAttempt topic (env 0) s).result = some (AttemptError.transient e)) :
    publishRetry topic env (r + 1) s b =
      ⟨(publishRetry topic (fun i => env (i + 1)) r (publishAttempt topic (env 0) s).state true).attempts + 1,
       (publishRetry topic (fun i => env (i + 1)) r (publishAttempt topic (env 0) s).state true).onRetryCalls + 1,
       (publishRetry topic (fun i => env (i + 1)) r (publishAttempt topic (env 0) s).state true).onRecoveredCalls,
       (publishRetry topic (fun i => env (i + 1)) r (publishAttempt topic (env 0) s).state true).finalState,
       (publishRetry topic (fun i => env (i + 1)) r (publishAttempt topic (env 0) s).state true).result⟩ := by
  conv_lhs => rw [publishRetry]
  simp only [h]

lemma publishRetry_net_failures (topic : String) (N : Nat) :
    ∀ (env : Nat → BrokerStep) (r : Nat) (s : ClientState) (b : Bool),
      N ≤ r →
      (∀ i, i < N → ∃ e, env i = BrokerStep.sendFails e ∧ e.isNetwork = true) →
      env N = BrokerStep.sendOk →
      (publishRetry topic env r s b).attempts = N + 1 ∧
      (publishRetry topic env r s b).onRetryCalls = N ∧
      (publishRetry topic env r s b).onRecoveredCalls = (if b ∨ 0 < N then 1 else 0) ∧
      (publishRetry topic env r s b).result = none := by
  induction N with
  | zero =>
      intro env r s b _ _ hok
      have h : (publishAttempt topic (env 0) s).result = none := by
        rw [hok]; simp [publishAttempt]
      rw [publishRetry_success_eq topic env r s b h]
      simp
  | succ N ih =>
      intro env r s b hNr hfail hok
      obtain ⟨e, he, hnet⟩ := hfail 0 (Nat.succ_pos N)
      obtain ⟨r2, rfl⟩ : ∃ r2, r = r2 + 1 := ⟨r - 1, by omega⟩
      have hres : (publishAttempt topic (env 0) s).result = some (AttemptError.transient e) := by
        rw [he]; simp [publishAttempt, hnet]
      obtain ⟨h1, h2, h3, h4⟩ := ih (fun i => env (i + 1)) r2
        (publishAttempt topic (env 0) s).state true (by omega)
        (fun i hi => hfail (i + 1) (by omega)) hok
      rw [publishRetry_transient_succ_eq topic env r2 s b e hres]
      refine ⟨by rw [h1], by rw [h2], ?_, by rw [h4]⟩
      rw [h3]
      simp

/-- C5: for every N ≥ 1 within the max-retry cap, an attempt function that
fails N times with network-classified errors and then succeeds is invoked
exactly N+1 times by `Publish`, with exactly N `onRetry` notifications and
exactly one `onRecovered` notification, returning success. -/
theorem publish_eventual_success (topic : String) (maxRetries N : Nat)
    (env : Nat → BrokerStep) (s : ClientState)
    (hN : 1 ≤ N) (hcap : N ≤ maxRetries)
    (hfail : ∀ i, i < N → ∃ e, env i = BrokerStep.sendFails e ∧ e.isNetwork = true)
    (hok : env N = BrokerStep.sendOk) :
    (Publish topic maxRetries env s).attempts = N + 1 ∧
    (Publish topic maxRetries env s).onRetryCalls = N ∧
    (Publish topic maxRetries env s).onRecoveredCalls = 1 ∧
    (Publish topic maxRetries env s).result = none := by
  obtain ⟨h1, h2, h3, h4⟩ :=
    publishRetry_net_failures topic N env maxRetries s false hcap hfail hok
  simp only [Publish]
  refine ⟨h1, h2, ?_, h4⟩
  rw [h3]
  have h0 : 0 < N := hN
  simp [h0]

/-- Closed instance for C5: two network failures then success gives three
attempts, two retry notifications and one recovery notification. -/
theorem publish_eventual_success_witness :
    (Publish "t" 3
        (fun i => if i < 2 then BrokerStep.sendFails ⟨true, false, 1⟩ else BrokerStep.sendOk)
        ClientState.init).attempts = 3 ∧
    (Publish "t" 3
        (fun i => if i < 2 then BrokerStep.sendFails ⟨true, false, 1⟩ else BrokerStep.sendOk)
        ClientState.init).onRetryCalls = 2 ∧
    (Publish "t" 3
        (fun i => if i < 2 then BrokerStep.sendFails ⟨true, false, 1⟩ else BrokerStep.sendOk)
        ClientState.init).onRecoveredCalls = 1 ∧
    (Publish "t" 3
        (fun i => if i < 2 then BrokerStep.sendFails ⟨true, false, 1⟩ else BrokerStep.sendOk)
        ClientState.init).result = none :=
  publish_eventual_success "t" 3 2 _ ClientState.init (by decide) (by decide)
    (fun i hi => ⟨⟨true, false, 1⟩, by rw [if_pos hi], rfl⟩) (by decide)

/-- Closed instance for C4: a permanently failing attempt is run once and its
error surfaces unmodified. -/
theorem publish_permanent_no_retry_witness :
    (Publish "t" 5 (fun _ => BrokerStep.sendFails ⟨false, false, 7⟩)
        ClientState.init).attempts = 1 ∧
    (Publish "t" 5 (fun _ => BrokerStep.sendFails ⟨false, false, 7⟩)
        ClientState.init).onRetryCalls = 0 ∧
    (Publish "t" 5 (fun _ => BrokerStep.sendFails ⟨false, false, 7⟩)
        ClientState.init).onRecoveredCalls = 0 ∧
    (Publish "t" 5 (fun _ => BrokerStep.sendFails ⟨false, false, 7⟩)
        ClientState.init).result = some ⟨false, false, 7⟩ :=
  publish_permanent_no_retry "t" 5 _ ClientState.init ⟨false, false, 7⟩
    (fun _ => rfl) rfl rfl

lemma lookup_filter_ne (topic : String) (l : List (String × Nat)) :
    (l.filter (fun p => p.1 ≠ topic)).lookup topic = none := by
  induction l with
  | nil => rfl
  | cons p rest ih =>
      rcases p with ⟨k, v⟩
      rw [List.filter_cons]
      by_cases h : k = topic
      · rw [if_neg (by simp [h])]
        exact ih
      · rw [if_pos (by simp [h]), List.lookup_cons]
        have hb : (topic == k) = false := by
          simp [beq_eq_false_iff_ne]
          exact fun hh => h hh.symm
        rw [hb]
        exact ih

lemma closeSender_lookup (topic : String) (s : ClientState) :
    (closeSender topic s).senders.lookup topic = none :=
  lookup_filter_ne topic s.senders

lemma getSender_of_lookup (topic : String) (s : ClientState) (g : Nat)
    (h : s.senders.lookup topic = some g) : getSender topic s = (s, g) := by
  simp only [getSender, h]

/-- C1: classification of a failed send inside the publish attempt. A
network-classified error evicts the cached sender (the next attempt cannot
find it and must re-resolve) and is retriable; a retriable-AMQP-classified
error is retriable with the sender cache untouched, so the next attempt
reuses the very same sender instance; any other error is wrapped Permanent
and the retry loop stops after the single attempt, while retriable errors
are retried whenever budget remains. -/
theorem publish_failure_classification (topic : String) (s : ClientState) (e : Err) :
    (e.isNetwork = true →
      (publishAttempt topic (BrokerStep.sendFails e) s).state.senders.lookup topic = none ∧
      (publishAttempt topic (BrokerStep.sendFails e) s).result =
        some (AttemptError.transient e)) ∧
    (e.isNetwork = false → e.isRetriableAMQP = true →
      (publishAttempt topic (BrokerStep.sendFails e) s).state = (getSender topic s).1 ∧
      (publishAttempt topic (BrokerStep.sendFails e) s).result =
        some (AttemptError.transient e) ∧
      (publishAttempt topic BrokerStep.sendOk
          (publishAttempt topic (BrokerStep.sendFails e) s).state).usedGen =
        (publishAttempt topic (BrokerStep.sendFails e) s).usedGen) ∧
    (e.isNetwork = false → e.isRetriableAMQP = false →
      (publishAttempt topic (BrokerStep.sendFails e) s).result =
        some (AttemptError.permanent e) ∧
      ∀ r, (publishRetry topic (fun _ => BrokerStep.sendFails e) r s false).attempts = 1) ∧
    ((e.isNetwork = true ∨ e.isRetriableAMQP = true) →
      ∀ r, 2 ≤ (publishRetry topic (fun _ => BrokerStep.sendFails e) (r + 1) s false).attempts) := by
  refine ⟨?_, ?_, ?_, ?_⟩
  · intro hn
    refine ⟨?_, ?_⟩
    · simp [publishAttempt, hn, closeSender_lookup]
    · simp [publishAttempt, hn]
  · intro hn ha
    refine ⟨?_, ?_, ?_⟩
    · simp [publishAttempt, hn, ha]
    · simp [publishAttempt, hn, ha]
    · have hidem := getSender_of_lookup topic (getSender topic s).1 (getSender topic s).2
        (getSender_lookup topic s)
      simp [publishAttempt, hn, ha, hidem]
  · intro hn ha
    have hres : (publishAttempt topic ((fun _ => BrokerStep.sendFails e) 0) s).result =
        some (AttemptError.permanent e) := by
      simp [publishAttempt, hn, ha]
    refine ⟨by simpa using hres, fun r => ?_⟩
    rw [publishRetry_permanent_eq topic (fun _ => BrokerStep.sendFails e) r s false e hres]
  · intro hor r
    have hres : (publishAttempt topic ((fun _ => BrokerStep.sendFails e) 0) s).result =
        some (AttemptError.transient e) := by
      cases hn : e.isNetwork with
      | true => simp [publishAttempt, hn]
      | false =>
          have ha : e.isRetriableAMQP = true := by
            rcases hor with h | h
            · rw [hn] at h; cases h
            · exact h
          simp [publishAttempt, hn, ha]
    rw [publishRetry_transient_succ_eq topic (fun _ => BrokerStep.sendFails e) r s false e hres]
    have hp := publishRetry_attempts_pos topic
      (fun i => (fun _ => BrokerStep.sendFails e) (i + 1)) r
      (publishAttempt topic ((fun _ => BrokerStep.sendFails e) 0) s).state true
    dsimp only at hp ⊢
    omega


/-- Closed instances for C1 at a network, a retriable-AMQP and a permanent
error on the fresh sender cache. -/
theorem publish_failure_classification_witness :
    ((publishAttempt "t" (BrokerStep.sendFails ⟨true, false, 1⟩)
        ClientState.init).state.senders.lookup "t" = none ∧
     (publishAttempt "t" (BrokerStep.sendFails ⟨true, false, 1⟩)
        ClientState.init).result = some (AttemptError.transient ⟨true, false, 1⟩)) ∧
    ((publishAttempt "t" (BrokerStep.sendFails ⟨false, true, 2⟩)
        ClientState.init).state = (getSender "t" ClientState.init).1 ∧
     (publishAttempt "t" (BrokerStep.sendFails ⟨false, true, 2⟩)
        ClientState.init).result = some (AttemptError.transient ⟨false, true, 2⟩) ∧
     (publishAttempt "t" BrokerStep.sendOk
        (publishAttempt "t" (BrokerStep.sendFails ⟨false, true, 2⟩)
          ClientState.init).state).usedGen =
       (publishAttempt "t" (BrokerStep.sendFails ⟨false, true, 2⟩)
          ClientState.init).usedGen) ∧
    ((publishAttempt "t" (BrokerStep.sendFails ⟨false, false, 3⟩)
        ClientState.init).result = some (AttemptError.permanent ⟨false, false, 3⟩) ∧
     (publishRetry "t" (fun _ => BrokerStep.sendFails ⟨false, false, 3⟩) 4
        ClientState.init false).attempts = 1) ∧
    2 ≤ (publishRetry "t" (fun _ => BrokerStep.sendFails ⟨true, false, 1⟩) (2 + 1)
        ClientState.init false).attempts :=
  ⟨(publish_failure_classification "t" ClientState.init ⟨true, false, 1⟩).1 rfl,
   (publish_failure_classification "t" ClientState.init ⟨false, true, 2⟩).2.1 rfl rfl,
   ⟨((publish_failure_classification "t" ClientState.init ⟨false, false, 3⟩).2.2.1 rfl rfl).1,
    ((publish_failure_classification "t" ClientState.init ⟨false, false, 3⟩).2.2.1 rfl rfl).2 4⟩,
   (publish_failure_classification "t" ClientState.init ⟨true, false, 1⟩).2.2.2 (Or.inl rfl) 2⟩

lemma loopRun_stopped (n : Nat) :
    ∀ (env : Nat → CycleOutcome) (st : LoopState), st.stopped = true →
      loopRun env n st = st := by
  induction n with
  | zero => intro env st _; rfl
  | succ n ih =>
      intro env st hs
      rw [loopRun]
      rw [show loopStep (env 0) st = st from by simp [loopStep, hs]]
      exact ih _ st hs

lemma loopRun_no_cancel (n : Nat) :
    ∀ (env : Nat → CycleOutcome) (st : LoopState),
      (∀ i, (env i).ctxCancelled = false) → st.stopped = false →
      (loopRun env n st).stopped = false ∧
      (loopRun env n st).waits.length = st.waits.length + n := by
  induction n with
  | zero => intro env st _ hs; simpa [loopRun] using hs
  | succ n ih =>
      intro env st hc hs
      rw [loopRun]
      obtain ⟨h1, h2⟩ := ih (fun i => env (i + 1)) (loopStep (env 0) st)
        (fun i => hc (i + 1)) (by simp [loopStep, hs, hc 0])
      refine ⟨h1, ?_⟩
      rw [h2]
      simp [loopStep, hs, hc 0]
      omega

lemma loopStep_bo (o : CycleOutcome) (st : LoopState)
    (hcur : st.bo.currentInterval ≤ st.bo.maxInterval)
    (hini : st.bo.initialInterval ≤ st.bo.maxInterval) :
    (loopStep o st).bo.initialInterval = st.bo.initialInterval ∧
    (loopStep o st).bo.maxInterval = st.bo.maxInterval ∧
    (loopStep o st).bo.currentInterval ≤ st.bo.maxInterval ∧
    ∀ w ∈ (loopStep o st).waits, w ∈ st.waits ∨ w ≤ st.bo.maxInterval := by
  rcases st with ⟨⟨ini, mx, cur⟩, stopped, waits⟩
  dsimp only at hcur hini ⊢
  cases stopped with
  | true =>
      simp [loopStep]
      exact ⟨hcur, fun w hw => Or.inl hw⟩
  | false =>
      cases hm : o.firstMessageReceived <;> cases hcnl : o.ctxCancelled
      · simp [loopStep, hm, hcnl, nextBackOff]
        intro w hw
        rcases hw with hw | hw
        · exact Or.inl hw
        · exact Or.inr (hw ▸ hcur)
      · simp [loopStep, hm, hcnl]
        exact ⟨hcur, fun w hw => Or.inl hw⟩
      · simp [loopStep, hm, hcnl, nextBackOff, resetBackOff]
        intro w hw
        rcases hw with hw | hw
        · exact Or.inl hw
        · exact Or.inr (hw ▸ hini)
      · simp [loopStep, hm, hcnl, resetBackOff]
        exact ⟨hini, fun w hw => Or.inl hw⟩

lemma loopRun_bo (n : Nat) :
    ∀ (env : Nat → CycleOutcome) (st : LoopState),
      st.bo.currentInterval ≤ st.bo.maxInterval →
      st.bo.initialInterval ≤ st.bo.maxInterval →
      (loopRun env n st).bo.initialInterval = st.bo.initialInterval ∧
      (loopRun env n st).bo.maxInterval = st.bo.maxInterval ∧
      (loopRun env n st).bo.currentInterval ≤ st.bo.maxInterval ∧
      ∀ w ∈ (loopRun env n st).waits, w ∈ st.waits ∨ w ≤ st.bo.maxInterval := by
  induction n with
  | zero => intro env st hcur hini; exact ⟨rfl, rfl, hcur, fun w hw => Or.inl hw⟩
  | succ n ih =>
      intro env st hcur hini
      obtain ⟨s1, s2, s3, s4⟩ := loopStep_bo (env 0) st hcur hini
      obtain ⟨h1, h2, h3, h4⟩ := ih (fun i => env (i + 1)) (loopStep (env 0) st)
        (by rw [s2]; exact s3) (by rw [s1, s2]; exact hini)
      rw [loopRun]
      refine ⟨h1.trans s1, h2.trans s2, by rw [s2] at h3; exact h3, ?_⟩
      intro w hw
      rcases h4 w hw with hw2 | hw2
      · rcases s4 w hw2 with hw3 | hw3
        · exact Or.inl hw3
        · exact Or.inr hw3
      · rw [s2] at hw2; exact Or.inr hw2

lemma loopRun_waits_mono (n : Nat) :
    ∀ (env : Nat → CycleOutcome) (st : LoopState),
      (∀ i, (env i).firstMessageReceived = false) →
      st.bo.currentInterval ≤ st.bo.maxInterval →
      List.Chain' (· ≤ ·) st.waits →
      (∀ w ∈ st.waits.getLast?, w ≤ st.bo.currentInterval) →
      List.Chain' (· ≤ ·) (loopRun env n st).waits := by
  induction n with
  | zero => intro env st _ _ hchain _; exact hchain
  | succ n ih =>
      intro env st hnf hcur hchain hlast
      rw [loopRun]
      cases hs : st.stopped with
      | true =>
          rw [show loopStep (env 0) st = st from by simp [loopStep, hs]]
          rw [loopRun_stopped n _ st hs]
          exact hchain
      | false =>
          cases hcnl : (env 0).ctxCancelled with
          | true =>
              have hstep : loopStep (env 0) st = ⟨st.bo, true, st.waits⟩ := by
                simp [loopStep, hs, hcnl, hnf 0]
              rw [hstep, loopRun_stopped n _ _ rfl]
              exact hchain
          | false =>
              have hstep : loopStep (env 0) st =
                  ⟨⟨st.bo.initialInterval, st.bo.maxInterval,
                    min (st.bo.currentInterval * 3 / 2) st.bo.maxInterval⟩, false,
                   st.waits ++ [st.bo.currentInterval]⟩ := by
                simp [loopStep, hs, hcnl, hnf 0, nextBackOff]
              rw [hstep]
              refine ih (fun i => env (i + 1)) _ (fun i => hnf (i + 1)) ?_ ?_ ?_
              · exact min_le_right _ _
              · rw [List.chain'_append]
                refine ⟨hchain, List.chain'_singleton _, ?_⟩
                intro x hx y hy
                simp only [List.head?_cons, Option.mem_def, Option.some.injEq] at hy
                subst hy
                exact hlast x hx
              · intro w hw
                simp only [List.getLast?_concat, Option.mem_def, Option.some.injEq] at hw
                subst hw
                dsimp only
                omega

/-- C3: the subscription reconnect loop never terminates on its own. While no
connection cycle observes a cancelled governing context the loop is still
running after every number of iterations and has performed exactly one backoff
wait per lost connection (no retry-count limit and no max-elapsed-time cap);
when a cycle does observe cancellation the loop exits at once without a
further wait, and a stopped loop performs no further cycles; every backoff
wait is bounded above by the configured maximum connection-recovery
interval. -/
theorem subscribe_reconnect_forever (env : Nat → CycleOutcome) (ini maxI : Nat)
    (h : ini ≤ maxI) :
    ((∀ i, (env i).ctxCancelled = false) →
       ∀ n, (loopRun env n (LoopState.start ini maxI)).stopped = false ∧
            (loopRun env n (LoopState.start ini maxI)).waits.length = n) ∧
    ((env 0).ctxCancelled = true →
       (loopStep (env 0) (LoopState.start ini maxI)).stopped = true ∧
       (loopStep (env 0) (LoopState.start ini maxI)).waits = []) ∧
    (∀ (n : Nat) (st : LoopState), st.stopped = true → loopRun env n st = st) ∧
    (∀ n, ∀ w ∈ (loopRun env n (LoopState.start ini maxI)).waits, w ≤ maxI) := by
  refine ⟨?_, ?_, ?_, ?_⟩
  · intro hc n
    have := loopRun_no_cancel n env (LoopState.start ini maxI) hc rfl
    simpa [LoopState.start] using this
  · intro hcnl
    cases hm : (env 0).firstMessageReceived <;>
      simp [loopStep, LoopState.start, hcnl, hm]
  · exact fun n st hs => loopRun_stopped n env st hs
  · intro n w hw
    have := (loopRun_bo n env (LoopState.start ini maxI) h h).2.2.2 w hw
    simpa [LoopState.start] using this

/-- Closed instance for C3: with cancellation never observed, after three
iterations the loop still runs and has waited three times, each wait within
the maximum interval; a first-cycle cancellation stops the loop with no wait. -/
theorem subscribe_reconnect_forever_witness :
    ((loopRun (fun _ => ⟨false, false, none⟩) 3 (LoopState.start 1 4)).stopped = false ∧
     (loopRun (fun _ => ⟨false, false, none⟩) 3 (LoopState.start 1 4)).waits.length = 3) ∧
    ((loopStep ((fun _ => (⟨false, true, none⟩ : CycleOutcome)) 0)
        (LoopState.start 1 4)).stopped = true ∧
     (loopStep ((fun _ => (⟨false, true, none⟩ : CycleOutcome)) 0)
        (LoopState.start 1 4)).waits = []) ∧
    ∀ w ∈ (loopRun (fun _ => ⟨false, false, none⟩) 3 (LoopState.start 1 4)).waits, w ≤ 4 :=
  ⟨(subscribe_reconnect_forever (fun _ => ⟨false, false, none⟩) 1 4 (by decide)).1
      (fun _ => rfl) 3,
   (subscribe_reconnect_forever (fun _ => ⟨false, true, none⟩) 1 4 (by decide)).2.1 rfl,
   (subscribe_reconnect_forever (fun _ => ⟨false, false, none⟩) 1 4 (by decide)).2.2.2 3⟩

/-- C6: the reconnect backoff is reset only by `onFirstSuccess`. In any run in
which no connection cycle delivers a first message the recorded backoff waits
are non-decreasing; a cycle that merely connects and fails (no first message)
records the grown current interval unchanged, while a cycle whose receive
phase did deliver a first message records the initial interval as the next
wait, the backoff having been reset. -/
theorem backoff_reset_only_on_first_message (env : Nat → CycleOutcome)
    (ini maxI : Nat) (h : ini ≤ maxI) :
    ((∀ i, (env i).firstMessageReceived = false) →
       ∀ n, List.Chain' (· ≤ ·) (loopRun env n (LoopState.start ini maxI)).waits) ∧
    (∀ (st : LoopState) (o : CycleOutcome), st.stopped = false →
       o.ctxCancelled = false → o.firstMessageReceived = true →
       (loopStep o st).waits = st.waits ++ [st.bo.initialInterval]) ∧
    (∀ (st : LoopState) (o : CycleOutcome), st.stopped = false →
       o.ctxCancelled = false → o.firstMessageReceived = false →
       (loopStep o st).waits = st.waits ++ [st.bo.currentInterval]) := by
  refine ⟨?_, ?_, ?_⟩
  · intro hnf n
    exact loopRun_waits_mono n env (LoopState.start ini maxI) hnf h List.chain'_nil
      (by simp [LoopState.start])
  · intro st o hs hcnl hm
    simp [loopStep, hs, hcnl, hm, nextBackOff, resetBackOff]
  · intro st o hs hcnl hm
    simp [loopStep, hs, hcnl, hm, nextBackOff]

/-- Closed instance for C6: three no-message cycles yield non-decreasing
waits; a first-message cycle on a grown backoff records the initial interval,
a no-message cycle records the grown interval. -/
theorem backoff_reset_only_on_first_message_witness :
    List.Chain' (· ≤ ·)
      (loopRun (fun _ => ⟨false, false, none⟩) 3 (LoopState.start 1 4)).waits ∧
    (loopStep ⟨true, false, none⟩ ⟨⟨1, 4, 3⟩, false, [1, 2]⟩).waits = [1, 2] ++ [1] ∧
    (loopStep ⟨false, false, none⟩ ⟨⟨1, 4, 3⟩, false, [1, 2]⟩).waits = [1, 2] ++ [3] :=
  ⟨(backoff_reset_only_on_first_message (fun _ => ⟨false, false, none⟩) 1 4
      (by decide)).1 (fun _ => rfl) 3,
   (backoff_reset_only_on_first_message (fun _ => ⟨false, false, none⟩) 1 4
      (by decide)).2.1 ⟨⟨1, 4, 3⟩, false, [1, 2]⟩ ⟨true, false, none⟩ rfl rfl rfl,
   (backoff_reset_only_on_first_message (fun _ => ⟨false, false, none⟩) 1 4
      (by decide)).2.2 ⟨⟨1, 4, 3⟩, false, [1, 2]⟩ ⟨false, false, none⟩ rfl rfl rfl⟩

end ServiceBusTopics
